import Mathlib

/-!
# Verification of the importer's durable import pipeline

A shallow embedding, in Lean 4, of the parts of the importer service that the
specification's claims talk about:

* the worker-level non-retryable-error classifier of `startImportWorker`
  (`src/queues/importQueue.ts`),
* the catalog dispatch on the success and failure paths of `processImportJob`
  (`src/jobs/importJob.ts`, the revision with encode-admin retry reporting),
* `addImportJob` and `killActiveJob` (`src/queues/importQueue.ts`),
* the recovery mirror's shutdown marking and stall-candidate filter
  (`JobRecoveryService`),
* the per-egress-identity download loop of `YouTubeDownloader.download` and
  its post-download file verification,
* the throttled progress emission of `BunnyStorage.performUpload`.

Pure functions of the source become Lean functions; effectful code becomes a
function from its external inputs (child-process outcomes, directory listings,
HTTP outcomes) to the sequence of observable events it produces (progress
emissions, attempt logs, catalog calls, thrown error).  Machine integers are
`Nat`/`Int`/`ℚ`; none of the quantities involved can overflow a JS double in
the ranges the claims concern.
-/

namespace Importer

/-- The character codes of a string.  String operations of the source are
modelled over code lists so that every definition evaluates by structural
recursion. -/
def codes (s : String) : List Nat :=
  s.data.map Char.toNat

/-- `subAt s p`: `p` is a prefix of `s` (both as code lists). -/
def subAt : List Nat → List Nat → Bool
  | _, [] => true
  | [], _ :: _ => false
  | a :: s, b :: p => a == b && subAt s p

/-- `hasSub s p`: `p` occurs as a contiguous sublist of `s`. -/
def hasSub : List Nat → List Nat → Bool
  | s, pat =>
    if subAt s pat then true
    else
      match s with
      | [] => false
      | _ :: t => hasSub t pat

/-- JS `String.prototype.includes`. -/
def jsIncludes (s pat : String) : Bool :=
  hasSub (codes s) (codes pat)

/-- JS `String.prototype.startsWith`. -/
def jsStartsWith (s pat : String) : Bool :=
  subAt (codes s) (codes pat)

/-- JS `String.prototype.endsWith`. -/
def jsEndsWith (s pat : String) : Bool :=
  subAt (codes s).reverse (codes pat).reverse

/-- ASCII lower-casing of one character code (`A`-`Z` map to `a`-`z`).
All strings the classifier compares are ASCII, so this coincides with JS
`toLowerCase` on them. -/
def lowerCode (n : Nat) : Nat :=
  if 65 ≤ n && n ≤ 90 then n + 32 else n

/-- The code list of `s.toLowerCase()`. -/
def lowerCodes (s : String) : List Nat :=
  (codes s).map lowerCode

/-- A JS `Error` value: its `name` and its `message`. -/
structure ErrorV where
  errName : String
  message : String
deriving Repr, DecidableEq

/-- JS truthiness of an optional string (`if (videoId)`): `undefined` and the
empty string are falsy. -/
def jsTruthy : Option String → Bool
  | some s => s != ""
  | none => false

/-! ## C1: the worker's non-retryable-error classifier (importQueue.ts 104-131) -/

/-- The list of non-retryable error-message patterns
(`src/queues/importQueue.ts` lines 106-112). -/
def nonRetryableErrors : List String :=
  ["File not found", "Invalid Google Drive URL", "File is not a video",
   "access denied", "unauthorized"]

/-- `shouldNotRetry` of the worker's catch handler: some pattern occurs
case-insensitively in the error message (lines 114-116,
`error.message.toLowerCase().includes(pattern.toLowerCase())`). -/
def shouldNotRetry (msg : String) : Bool :=
  nonRetryableErrors.any fun pat => hasSub (lowerCodes msg) (lowerCodes pat)

/-- The error rethrown by the worker's catch handler (lines 118-131): a
matched message is wrapped in a fresh error whose `name` is set to
`"PermanentFailure"`; otherwise the original error is rethrown. -/
def workerRethrow (err : ErrorV) : ErrorV :=
  if shouldNotRetry err.message then
    { errName := "PermanentFailure", message := "Permanent failure: " ++ err.message }
  else err

/-- Where the job store moves a job whose processing attempt threw. -/
inductive FailTarget
  | retryDelayed
  | terminalFailed
deriving Repr, DecidableEq

/-- The retry decision of the queue library (BullMQ) backing the job store;
the library is not part of this repository's sources.  Per BullMQ's
documented contract, a failed attempt is re-armed (delayed retry) while
attempts remain, unless the job was discarded or the thrown error is
BullMQ's `UnrecoverableError` — recognized by the error name
`"UnrecoverableError"`; no other error name suppresses retries.
`attemptsMade` is the 0-based count of prior attempts as observed during
processing (see the comment at importJob.ts: "job.attemptsMade starts at 0,
so after 3 attempts it's 2"), so attempts remain while
`attemptsMade + 1 < maxAttempts`.  The repository never calls
`job.discard()`, so that escape hatch is omitted. -/
def queueFailTarget (attemptsMade maxAttempts : Nat) (errName : String) : FailTarget :=
  if attemptsMade + 1 < maxAttempts && errName != "UnrecoverableError" then
    .retryDelayed
  else
    .terminalFailed

/-- C1: refuted by the code.  The worker classifies an attempt failing with
message "File not found" as non-retryable and rethrows an error whose `name`
is `"PermanentFailure"` — but that is not the `"UnrecoverableError"` marker
the job store recognizes, so with attempts remaining (`attempts_made = 0`,
`max_attempts = 3`) the store re-arms the job for a delayed retry instead of
terminally failing it. -/
theorem c1_permanent_marker_not_honored :
    shouldNotRetry "File not found" = true
    ∧ (workerRethrow ⟨"Error", "File not found"⟩).errName = "PermanentFailure"
    ∧ queueFailTarget 0 3 (workerRethrow ⟨"Error", "File not found"⟩).errName
        = FailTarget.retryDelayed := by
  refine ⟨by decide, by decide, by decide⟩

/-! ## C2/C3: catalog webhook dispatch of `processImportJob` (importJob.ts) -/

/-- One call to the encode-admin catalog service, with the arguments the
claims mention. -/
inductive CatalogCall
  | createVideo (videoName sourceLink : String)
  | updateVideoSourceLink (videoId sourceLink : String)
  | reportImportSuccess (videoId sourceLink : String) (isRetry : Bool)
  | reportImportFailure (videoId errMsg sourceUrl : String) (retryCount : Nat)
deriving Repr, DecidableEq

/-- The catalog calls issued by the success path of `processImportJob`
(importJob.ts lines 176-238), with `cdnUrl` the upload's CDN URL.  The
branch on `if (videoId)` is JS truthiness; `isRetry` is
`job.attemptsMade > 0`; each branch issues exactly one call, wrapped in a
try/catch whose failure does not fail the job. -/
def successCatalogCalls (videoId : Option String) (attemptsMade : Nat)
    (videoName cdnUrl : String) : List CatalogCall :=
  if jsTruthy videoId then
    if 0 < attemptsMade then
      [CatalogCall.reportImportSuccess (videoId.getD "") cdnUrl true]
    else
      [CatalogCall.updateVideoSourceLink (videoId.getD "") cdnUrl]
  else
    [CatalogCall.createVideo videoName cdnUrl]

/-- `EncodeAdminService.reportImportFailure` (encodeAdmin.ts lines 90-115):
whatever the HTTP POST does, the method catches and returns normally — the
source comment reads "Don't throw - we don't want to fail the cleanup
because webhook failed". -/
def reportImportFailureCall : Except String Unit → Except String Unit
  | .ok _ => .ok ()
  | .error _ => .ok ()

/-- The failure path of `processImportJob` (importJob.ts lines 281-366):
the catalog calls issued and the error rethrown to the job store.
`reportImportFailure` is issued iff `videoId` is truthy and
`job.attemptsMade >= env.MAX_RETRY_ATTEMPTS - 1` (JS arithmetic, modelled
over `Int`); it carries the error message, `sourceUrl := url`, and
`retryCount := job.attemptsMade + 1` (lines 322-326).  The call
site wraps the webhook in its own try/catch (lines 321-337), and line 365
rethrows the original error unconditionally, so `webhookResult` influences
neither component. -/
def processFailurePath (videoId : Option String) (attemptsMade maxRetryAttempts : Nat)
    (url errMsg : String) (webhookResult : Except String Unit) :
    List CatalogCall × String :=
  let calls :=
    if jsTruthy videoId && decide ((attemptsMade : Int) ≥ (maxRetryAttempts : Int) - 1) then
      [CatalogCall.reportImportFailure (videoId.getD "") errMsg url (attemptsMade + 1)]
    else
      []
  let _ := reportImportFailureCall webhookResult
  (calls, errMsg)

/-- C2: confirmed.  The success path issues exactly one catalog call, and it
is `createVideo` iff the job carries no (truthy) `videoId`,
`updateVideoSourceLink` iff `videoId` is present and `attempts_made = 0`,
and `reportImportSuccess(..., is_retry := true)` iff `videoId` is present
and `attempts_made > 0`. -/
theorem c2_exactly_one_catalog_call (videoId : Option String) (a : Nat)
    (nm cdn : String) :
    (successCatalogCalls videoId a nm cdn).length = 1
    ∧ (successCatalogCalls videoId a nm cdn = [CatalogCall.createVideo nm cdn]
        ↔ jsTruthy videoId = false)
    ∧ (successCatalogCalls videoId a nm cdn
          = [CatalogCall.updateVideoSourceLink (videoId.getD "") cdn]
        ↔ (jsTruthy videoId = true ∧ a = 0))
    ∧ (successCatalogCalls videoId a nm cdn
          = [CatalogCall.reportImportSuccess (videoId.getD "") cdn true]
        ↔ (jsTruthy videoId = true ∧ 0 < a)) := by
  unfold successCatalogCalls
  by_cases hv : jsTruthy videoId = true
  · rcases Nat.eq_zero_or_pos a with ha | ha
    · subst ha; simp [hv]
    · simp [hv, ha, Nat.pos_iff_ne_zero.mp ha]
  · simp only [Bool.not_eq_true] at hv
    simp [hv]

/-- C3: confirmed.  On a failing attempt, `reportImportFailure` is issued
exactly once iff `videoId` is truthy and
`attempts_made ≥ max_retry_attempts − 1`, and zero times otherwise; its
outcome does not change the rethrown error, and the webhook wrapper itself
never throws. -/
theorem c3_failure_report_iff_terminal (videoId : Option String)
    (a m : Nat) (url errMsg s : String) (w : Except String Unit) :
    ((processFailurePath videoId a m url errMsg w).1
        = [CatalogCall.reportImportFailure (videoId.getD "") errMsg url (a + 1)]
        ↔ (jsTruthy videoId = true ∧ (a : Int) ≥ (m : Int) - 1))
    ∧ ((processFailurePath videoId a m url errMsg w).1 = []
        ↔ ¬ (jsTruthy videoId = true ∧ (a : Int) ≥ (m : Int) - 1))
    ∧ (processFailurePath videoId a m url errMsg w).2 = errMsg
    ∧ (processFailurePath videoId a m url errMsg (.error s)
        = processFailurePath videoId a m url errMsg (.ok ()))
    ∧ reportImportFailureCall (.error s) = .ok () := by
  unfold processFailurePath reportImportFailureCall
  by_cases hv : jsTruthy videoId = true
  · by_cases ha : (a : Int) ≥ (m : Int) - 1
    · simp [hv, ha]
    · simp [hv, ha]
  · simp only [Bool.not_eq_true] at hv
    simp [hv]

/-! ## C4: `addImportJob` idempotency by `requestId` (importQueue.ts 179-191) -/

/-- The payload of an import job (`ImportJobData`, importQueue.ts 8-15);
fields irrelevant to the claims are carried opaquely. -/
structure ImportJobData where
  url : String
  jobType : String
  fileName : Option String
  requestId : String
  videoId : Option String
deriving Repr, DecidableEq

/-- A job held by the store, keyed by its job id. -/
structure StoredJob where
  id : String
  data : ImportJobData
  terminal : Bool
deriving Repr, DecidableEq

/-- Modelled from the spec: the job store's `add` with an explicit job id.
The store itself is the queue library (BullMQ), which is not part of the
repository's sources; per its documented contract — and spec §4.1,
"Idempotent by `request_id`: if a non-terminal job with that id exists,
return it; otherwise enqueue at `waiting`" — adding under an id that
already exists enqueues nothing and yields the existing job. -/
def queueAdd (store : List StoredJob) (id : String) (data : ImportJobData) :
    StoredJob × List StoredJob :=
  match store.find? (fun j => j.id == id) with
  | some j => (j, store)
  | none =>
    let j : StoredJob := ⟨id, data, false⟩
    (j, store ++ [j])

/-- `addImportJob` (importQueue.ts 179-191): submits to the queue with
`jobId := data.requestId`. -/
def addImportJob (store : List StoredJob) (data : ImportJobData) :
    StoredJob × List StoredJob :=
  queueAdd store data.requestId data

/-- C4: confirmed (store semantics modelled from the spec).  Submitting
while a non-terminal job with the same `requestId` exists changes nothing
and returns a stored job with that id; and submission preserves uniqueness
of job ids, so the store never holds two jobs with the same `request_id`. -/
theorem c4_submit_idempotent (store : List StoredJob) (d : ImportJobData)
    (j : StoredJob) (hmem : j ∈ store) (hid : j.id = d.requestId)
    (hnt : j.terminal = false) :
    (addImportJob store d).2 = store
    ∧ (addImportJob store d).1 ∈ store
    ∧ (addImportJob store d).1.id = d.requestId
    ∧ (List.Pairwise (fun a b => a.id ≠ b.id) store →
        List.Pairwise (fun a b => a.id ≠ b.id) (addImportJob store d).2) := by
  have hfind : (store.find? (fun x => x.id == d.requestId)).isSome := by
    rw [List.find?_isSome]
    exact ⟨j, hmem, by simp [hid]⟩
  rcases Option.isSome_iff_exists.mp hfind with ⟨r, hr⟩
  have hr1 : r ∈ store := List.mem_of_find?_eq_some hr
  have hr2 : r.id = d.requestId := by
    have := List.find?_some hr
    simpa using this
  refine ⟨?_, ?_, ?_, ?_⟩ <;>
    simp [addImportJob, queueAdd, hr, hr1, hr2]

/-- Witness for C4 at a concrete store holding a non-terminal job with the
resubmitted `requestId`. -/
theorem c4_submit_idempotent_witness :
    (addImportJob [⟨"r1", ⟨"http://x", "direct", none, "r1", none⟩, false⟩]
        ⟨"http://x", "direct", none, "r1", none⟩).2
      = [⟨"r1", ⟨"http://x", "direct", none, "r1", none⟩, false⟩]
    ∧ (addImportJob [⟨"r1", ⟨"http://x", "direct", none, "r1", none⟩, false⟩]
        ⟨"http://x", "direct", none, "r1", none⟩).1
      ∈ [⟨"r1", ⟨"http://x", "direct", none, "r1", none⟩, false⟩] :=
  ⟨(c4_submit_idempotent _ _ ⟨"r1", ⟨"http://x", "direct", none, "r1", none⟩, false⟩
      (by simp) rfl rfl).1,
   (c4_submit_idempotent _ _ ⟨"r1", ⟨"http://x", "direct", none, "r1", none⟩, false⟩
      (by simp) rfl rfl).2.1⟩

/-! ## C5: recovery-mirror shutdown marking vs. the startup sweep
(jobRecovery.ts: `JobRecoveryService`) -/

/-- Status stored in a recovery-mirror record (`JobState.status`). -/
inductive RecStatus
  | active
  | stalled
  | failed
  | completed
deriving Repr, DecidableEq

/-- A recovery-mirror record (`JobState`, jobRecovery.ts 193-200), with the
fields the claim concerns; `timestamp` is a millisecond epoch clock. -/
structure RecoveryRecord where
  jobId : String
  status : RecStatus
  timestamp : Nat
  tempFiles : List String
deriving Repr, DecidableEq

/-- `STALE_JOB_THRESHOLD` (jobRecovery.ts 205): 5 minutes in ms. -/
def STALE_JOB_THRESHOLD : Nat := 300000

/-- What `JobRecoveryService.shutdown` (jobRecovery.ts 428-441) does to each
in-flight job's record: `status := 'stalled'`, `timestamp := Date.now()`. -/
def shutdownMark (now : Nat) (s : RecoveryRecord) : RecoveryRecord :=
  { s with status := RecStatus.stalled, timestamp := now }

/-- The filter of `getStalledJobStates` (jobRecovery.ts 360-384): a record
is picked up by the startup sweep iff it is older than the stale threshold
AND its recorded status is `'active'`
(`jobState.timestamp < staleThreshold && jobState.status === 'active'`). -/
def isStalledCandidate (now : Nat) (s : RecoveryRecord) : Bool :=
  s.timestamp < now - STALE_JOB_THRESHOLD && s.status == RecStatus.active

/-- C5: refuted by the code.  `shutdown` marks an in-flight job's record
`'stalled'` with a fresh timestamp — but the startup sweep only selects
records whose status is `'active'`, so a record written by graceful
shutdown is never selected by the stall-recovery sweep, at any later
startup time. -/
theorem c5_shutdown_marked_jobs_never_swept (now later : Nat) (s : RecoveryRecord) :
    (shutdownMark now s).status = RecStatus.stalled
    ∧ (shutdownMark now s).timestamp = now
    ∧ isStalledCandidate later (shutdownMark now s) = false := by
  refine ⟨rfl, rfl, ?_⟩
  simp [isStalledCandidate, shutdownMark]

/-! ## C10: `killActiveJob` (importQueue.ts 213-228) -/

/-- A job's queue status. -/
inductive JobStatus
  | waiting
  | active
  | delayed
  | completed
  | failed
deriving Repr, DecidableEq

/-- A job as held by the queue, with the state `killActiveJob` touches. -/
structure QJob where
  id : String
  status : JobStatus
  failedReason : Option String
deriving Repr, DecidableEq

/-- Modelled from the spec: `Job.moveToFailed(err, ...)` of the queue
library, as spec §4.1 describes `kill_active` — "Forces a running job to
terminal-failed with reason 'manually killed'" — applied to one stored
job. -/
def moveToFailed (reason : String) (j : QJob) : QJob :=
  { j with status := JobStatus.failed, failedReason := some reason }

/-- `killActiveJob` (importQueue.ts 213-228): look the job up by id; throw
a not-found error when absent; `moveToFailed(new Error('Job manually
killed'), ...)` when it is active; otherwise `job.remove()`. -/
def killActiveJob (store : List QJob) (jobId : String) : Except String (List QJob) :=
  match store.find? (fun j => j.id == jobId) with
  | none => .error ("Job " ++ jobId ++ " not found")
  | some j =>
    if j.status == JobStatus.active then
      .ok (store.map fun x => if x.id == jobId then moveToFailed "Job manually killed" x else x)
    else
      .ok (store.filter fun x => x.id != jobId)

/-- C10: confirmed (the store facade modelled from the spec).  For a
missing id, `killActiveJob` throws the not-found error; for an active job,
it marks every job under that id terminally failed with reason
"Job manually killed" while keeping all jobs; for an existing non-active
job, it deletes the job from the store. -/
theorem c10_kill_active_dispatch (store : List QJob) (jobId : String) :
    (store.find? (fun j => j.id == jobId) = none →
      killActiveJob store jobId = .error ("Job " ++ jobId ++ " not found"))
    ∧ (∀ j, store.find? (fun x => x.id == jobId) = some j →
        j.status = JobStatus.active →
        ∃ store', killActiveJob store jobId = .ok store'
          ∧ store'.length = store.length
          ∧ (∀ x ∈ store', x.id = jobId →
              x.status = JobStatus.failed ∧ x.failedReason = some "Job manually killed"))
    ∧ (∀ j, store.find? (fun x => x.id == jobId) = some j →
        j.status ≠ JobStatus.active →
        ∃ store', killActiveJob store jobId = .ok store'
          ∧ (∀ x ∈ store', x.id ≠ jobId)
          ∧ (∀ x ∈ store', x ∈ store)) := by
  refine ⟨?_, ?_, ?_⟩
  · intro hnone
    simp [killActiveJob, hnone]
  · intro j hj hact
    have hact2 : (j.status == JobStatus.active) = true := by simp [hact]
    refine ⟨store.map fun x =>
        if x.id == jobId then moveToFailed "Job manually killed" x else x,
      ?_, by simp, ?_⟩
    · unfold killActiveJob
      rw [hj]
      simp [hact2]
    intro x hx hid
    rcases List.mem_map.mp hx with ⟨y, _, hy⟩
    by_cases hyid : y.id == jobId
    · simp only [hyid, if_true] at hy
      subst hy
      exact ⟨rfl, rfl⟩
    · simp only [hyid, if_false] at hy
      subst hy
      exact absurd hid (by simpa using hyid)
  · intro j hj hact
    have hact' : (j.status == JobStatus.active) = false := by
      simpa using hact
    refine ⟨store.filter fun x => x.id != jobId, ?_, ?_, ?_⟩
    · unfold killActiveJob
      rw [hj]
      simp [hact']
    · intro x hx
      have := (List.mem_filter.mp hx).2
      simpa using this
    · intro x hx
      exact (List.mem_filter.mp hx).1

/-- Witness for C10: killing an active job marks it failed with the manual
reason; killing an existing waiting job deletes it. -/
theorem c10_kill_active_witness :
    (∃ store', killActiveJob [⟨"j1", JobStatus.active, none⟩] "j1" = .ok store'
      ∧ store'.length = 1
      ∧ (∀ x ∈ store', x.id = "j1" →
          x.status = JobStatus.failed ∧ x.failedReason = some "Job manually killed"))
    ∧ (∃ store', killActiveJob [⟨"j2", JobStatus.waiting, none⟩] "j2" = .ok store'
      ∧ (∀ x ∈ store', x.id ≠ "j2")) := by
  constructor
  · exact (c10_kill_active_dispatch [⟨"j1", JobStatus.active, none⟩] "j1").2.1
      ⟨"j1", JobStatus.active, none⟩ (by decide) rfl
  · rcases (c10_kill_active_dispatch [⟨"j2", JobStatus.waiting, none⟩] "j2").2.2
      ⟨"j2", JobStatus.waiting, none⟩ (by decide) (by decide) with ⟨store', h1, h2, _⟩
    exact ⟨store', h1, h2⟩

/-! ## C8: throttled upload progress of `BunnyStorage.performUpload`
(downloader.ts 507-593, the revision with the 1 MiB throttle) -/

/-- `PROGRESS_UPDATE_INTERVAL` (downloader.ts 522): 1 MiB. -/
def PROGRESS_UPDATE_INTERVAL : Nat := 1024 * 1024

/-- `Math.round((uploadedBytes / fileSize) * 100)` for `Nat` inputs: round
half up, i.e. `⌊(200·u + s) / (2·s)⌋`.  (For `s = 0` JS yields `NaN`; the
model yields `0`; no claim concerns a zero-byte upload.) -/
def jsRoundPercent (u s : Nat) : Nat :=
  (2 * (u * 100) + s) / (2 * s)

/-- One invocation of the upload progress callback.  `deferred` records that
the call site dispatches it through `setImmediate` rather than invoking it
inline (downloader.ts 541 and 584). -/
structure UploadProgressEvent where
  uploadedBytes : Nat
  totalBytes : Nat
  percentage : Nat
  deferred : Bool
deriving Repr, DecidableEq

/-- The mutable state of the progress `Transform` stream:
`uploadedBytes`, `lastProgressUpdate`, and the calls issued so far. -/
structure UploadFold where
  uploadedBytes : Nat
  lastProgressUpdate : Nat
  events : List UploadProgressEvent
deriving Repr

/-- One chunk through the progress transform (downloader.ts 529-546): add
the chunk's length, and emit a deferred progress call only when at least
`PROGRESS_UPDATE_INTERVAL` bytes passed since the last emission. -/
def uploadStep (fileSize : Nat) (st : UploadFold) (chunk : Nat) : UploadFold :=
  let uploaded := st.uploadedBytes + chunk
  if PROGRESS_UPDATE_INTERVAL ≤ uploaded - st.lastProgressUpdate then
    { uploadedBytes := uploaded
      lastProgressUpdate := uploaded
      events := st.events ++
        [⟨uploaded, fileSize, jsRoundPercent uploaded fileSize, true⟩] }
  else
    { st with uploadedBytes := uploaded }

/-- The progress calls emitted by the transform stream over a whole upload,
given the sizes of the chunks the file reader delivers. -/
def uploadTransformEvents (chunks : List Nat) (fileSize : Nat) :
    List UploadProgressEvent :=
  (chunks.foldl (uploadStep fileSize) ⟨0, 0, []⟩).events

/-- All progress calls of a successful `performUpload`: the throttled
transform events followed by the unconditional final 100% emission
(downloader.ts 582-589, also dispatched via `setImmediate`). -/
def uploadEvents (chunks : List Nat) (fileSize : Nat) : List UploadProgressEvent :=
  uploadTransformEvents chunks fileSize ++ [⟨fileSize, fileSize, 100, true⟩]

theorem jsRoundPercent_mono (s : Nat) {u u' : Nat} (h : u ≤ u') :
    jsRoundPercent u s ≤ jsRoundPercent u' s :=
  Nat.div_le_div_right (by omega)

theorem jsRoundPercent_le_100 {u s : Nat} (h : u ≤ s) :
    jsRoundPercent u s ≤ 100 := by
  rcases Nat.eq_zero_or_pos s with hs | hs
  · have hu : u = 0 := by omega
    subst hs; subst hu
    simp [jsRoundPercent]
  · have hlt : 2 * (u * 100) + s < 101 * (2 * s) := by omega
    have := (Nat.div_lt_iff_lt_mul (by omega : 0 < 2 * s)).mpr hlt
    unfold jsRoundPercent
    omega

/-- The relation successive throttled emissions satisfy: at least 1 MiB more
transferred, and a percentage at least as large. -/
def uploadGap (a b : UploadProgressEvent) : Prop :=
  a.uploadedBytes + PROGRESS_UPDATE_INTERVAL ≤ b.uploadedBytes
  ∧ a.percentage ≤ b.percentage

/-- Invariant of the transform-stream state. -/
def UploadInv (fileSize : Nat) (st : UploadFold) : Prop :=
  st.lastProgressUpdate ≤ st.uploadedBytes
  ∧ List.Chain' uploadGap st.events
  ∧ (∀ e ∈ st.events,
      PROGRESS_UPDATE_INTERVAL ≤ e.uploadedBytes
      ∧ e.uploadedBytes ≤ st.uploadedBytes
      ∧ e.percentage = jsRoundPercent e.uploadedBytes fileSize
      ∧ e.totalBytes = fileSize
      ∧ e.deferred = true)
  ∧ (∀ x ∈ st.events.getLast?, x.uploadedBytes = st.lastProgressUpdate)

theorem mem_of_getLast?_mem {α : Type} {l : List α} {x : α}
    (h : x ∈ l.getLast?) : x ∈ l := by
  rcases List.mem_getLast?_eq_getLast h with ⟨hne, hx⟩
  subst hx
  exact List.getLast_mem hne

theorem uploadStep_inv (fileSize c : Nat) (st : UploadFold)
    (h : UploadInv fileSize st) : UploadInv fileSize (uploadStep fileSize st c) := by
  obtain ⟨h1, h2, h3, h4⟩ := h
  unfold uploadStep
  by_cases hc : PROGRESS_UPDATE_INTERVAL ≤ st.uploadedBytes + c - st.lastProgressUpdate
  · rw [if_pos hc]
    refine ⟨le_rfl, ?_, ?_, ?_⟩
    · rw [List.chain'_append]
      refine ⟨h2, List.chain'_singleton _, ?_⟩
      intro x hx y hy
      simp only [List.head?_cons, Option.mem_def, Option.some.injEq] at hy
      subst hy
      have hx1 := h4 x hx
      have hx2 := (h3 x (mem_of_getLast?_mem hx)).2.2.1
      refine ⟨?_, ?_⟩ <;> dsimp only
      · omega
      · rw [hx2, hx1]
        exact jsRoundPercent_mono fileSize (by omega)
    · intro e he
      rcases List.mem_append.mp he with he | he
      · obtain ⟨e1, e2, e3, e4, e5⟩ := h3 e he
        refine ⟨e1, ?_, e3, e4, e5⟩
        dsimp only
        omega
      · simp only [List.mem_singleton] at he
        subst he
        refine ⟨?_, ?_, rfl, rfl, rfl⟩ <;> dsimp only <;> omega
    · intro x hx
      rw [List.getLast?_concat] at hx
      simp only [Option.mem_def, Option.some.injEq] at hx
      subst hx
      rfl
  · rw [if_neg hc]
    refine ⟨?_, h2, ?_, h4⟩
    · dsimp only
      omega
    · intro e he
      obtain ⟨e1, e2, e3, e4, e5⟩ := h3 e he
      refine ⟨e1, ?_, e3, e4, e5⟩
      dsimp only
      omega

theorem uploadFold_inv (fileSize : Nat) :
    ∀ (chunks : List Nat) (st : UploadFold), UploadInv fileSize st →
      UploadInv fileSize (chunks.foldl (uploadStep fileSize) st)
  | [], _, h => h
  | c :: rest, st, h =>
    uploadFold_inv fileSize rest _ (uploadStep_inv fileSize c st h)

theorem uploadStep_bytes (fileSize c : Nat) (st : UploadFold) :
    (uploadStep fileSize st c).uploadedBytes = st.uploadedBytes + c := by
  unfold uploadStep
  by_cases hc : PROGRESS_UPDATE_INTERVAL ≤ st.uploadedBytes + c - st.lastProgressUpdate
  · rw [if_pos hc]
  · rw [if_neg hc]

theorem uploadFold_bytes (fileSize : Nat) :
    ∀ (chunks : List Nat) (st : UploadFold),
      (chunks.foldl (uploadStep fileSize) st).uploadedBytes
        = st.uploadedBytes + chunks.sum
  | [], st => by simp
  | c :: rest, st => by
    rw [List.foldl_cons, uploadFold_bytes fileSize rest, uploadStep_bytes]
    simp [Nat.add_assoc]

theorem uploadInv_init (fileSize : Nat) : UploadInv fileSize ⟨0, 0, []⟩ :=
  ⟨le_rfl, List.chain'_nil, by simp, by simp⟩

/-- C8: confirmed.  During an upload the throttled progress callbacks are at
least `PROGRESS_UPDATE_INTERVAL` (1 MiB) of transferred bytes apart — so the
callback fires at most once per 1 MiB — every emission (including the final
one) is dispatched through the deferred scheduling primitive, and the last
emission on completion reports exactly 100%. -/
theorem c8_upload_progress_throttled (chunks : List Nat) (fileSize : Nat) :
    List.Chain'
      (fun a b => a.uploadedBytes + PROGRESS_UPDATE_INTERVAL ≤ b.uploadedBytes)
      (uploadTransformEvents chunks fileSize)
    ∧ (∀ e ∈ uploadTransformEvents chunks fileSize,
        PROGRESS_UPDATE_INTERVAL ≤ e.uploadedBytes)
    ∧ (∀ e ∈ uploadEvents chunks fileSize, e.deferred = true)
    ∧ (uploadEvents chunks fileSize).getLast? = some ⟨fileSize, fileSize, 100, true⟩ := by
  obtain ⟨h1, h2, h3, h4⟩ :=
    uploadFold_inv fileSize chunks ⟨0, 0, []⟩ (uploadInv_init fileSize)
  unfold uploadEvents uploadTransformEvents
  refine ⟨h2.imp (fun a b hab => hab.1), ?_, ?_, ?_⟩
  · intro e he
    exact (h3 e he).1
  · intro e he
    rcases List.mem_append.mp he with he | he
    · exact (h3 e he).2.2.2.2
    · simp only [List.mem_singleton] at he
      subst he
      rfl
  · exact List.getLast?_concat _

/-! ## C6/C7: the egress-identity loop of `YouTubeDownloader.download`
(youtubeDownloader.ts, the revision with proxy logs; part_005) -/

/-- `5 * 1024 * 1024` — the minimum size of a verified video file
(youtubeDownloader.ts line 228). -/
def MIN_VIDEO_BYTES : Nat := 5 * 1024 * 1024

/-- The predicate of the `files.find(...)` verification (lines 211-218): the
produced file starts with the `<videoId>-<nonce>` stem and is none of the
temp/fragment shapes. -/
def isCompleteVideoFile (stem fileName : String) : Bool :=
  jsStartsWith fileName stem
  && !jsEndsWith fileName ".part"
  && !jsEndsWith fileName ".ytdl"
  && !jsEndsWith fileName ".temp"
  && !jsIncludes fileName "part-Frag"
  && !jsIncludes fileName ".part-"

/-- What one `yt-dlp` child run did: the progress percentages parsed from
its stdout (`(\d+\.\d+)%`), in order, and whether it exited 0 within the
timeout. -/
structure SpawnRun where
  progressLines : List ℚ
  exitZero : Bool
deriving Repr

/-- A file in the output directory listing, with its size. -/
structure FileEntry where
  fname : String
  size : Nat
deriving Repr, DecidableEq

/-- The external environment of one egress-identity attempt: the child-run
outcome and the directory listing seen after it. -/
structure YtAttemptEnv where
  run : SpawnRun
  files : List FileEntry
deriving Repr

/-- One entry of `proxyLogs` (`ProxyLog` of importQueue.ts), with the fields
the claim concerns; the wall-clock fields are not modelled. -/
structure ProxyLog where
  proxyUrl : String
  attemptNumber : Nat
  success : Bool
deriving Repr, DecidableEq

/-- Observable outcome of `YouTubeDownloader.download`: the final
`proxyLogs` list, the progress percentages emitted (in order), the returned
file or thrown error, and the files deleted by the minimum-size check. -/
structure YtLoopOut where
  logs : List ProxyLog
  emissions : List ℚ
  result : Except String FileEntry
  deletedSmall : List FileEntry
deriving Repr

/-- One stdout progress line of `runYtDlpWithSpawn` (lines 324-339): the
parsed percentage `p` is only forwarded when it exceeds `lastProgress`
(the state's first component, initially 0), rescaled as
`10 + proxyIndex * 15 / totalProxies + percentage * 0.75` and clamped to
89 (`Math.min(adjustedProgress, 89)`). -/
def ytRunStep (i n : Nat) (st : ℚ × List ℚ) (p : ℚ) : ℚ × List ℚ :=
  if st.1 < p then
    (p, st.2 ++ [min ((10 : ℚ) + (i * 15 : ℚ) / (n : ℚ) + p * (3 / 4)) 89])
  else st

/-- The progress emissions of one whole `yt-dlp` child run, over the
percentages parsed from its stdout in order. -/
def ytRunEmissions (i n : Nat) (lines : List ℚ) : List ℚ :=
  (lines.foldl (ytRunStep i n) ((0 : ℚ), ([] : List ℚ))).2

/-- Result of one proxy-loop iteration: the loop either continues with the
next identity or the whole call finishes. -/
inductive YtStepRes
  | next (acc : YtLoopOut)
  | done (out : YtLoopOut)
deriving Repr

/-- One iteration of the proxy loop of `YouTubeDownloader.download` (the
body of the `for` at youtubeDownloader.ts line 107), for identity index
`i` out of `n`.  The iteration emits `10 + i * 15` before spawning (line
120), then the child-run emissions.  (The 5-second pre-probe of lines
126-168 only harvests quality metadata and is not modelled.)  On zero exit
it logs the attempt as successful, emits 90, and verifies the produced
file; a missing or too-small file raises inside the iteration's own `try`,
whose `catch` (lines 274-293) marks the one pushed log object failed and
pushes it a second time — since both list slots alias the same mutated
object, the final list holds that identity twice, reading
`success = false` both times, which the model renders as two failed
entries.  On non-zero exit it logs a failure; for the last identity the
`throw` of line 270 is itself raised inside the `try`, so the `catch`
pushes the same (failed) log object a second time before rethrowing.  A
success returns the verified file after emitting 100; a too-small file is
deleted (`fs.unlinkSync`, line 229) and the attempt fails. -/
def ytStep (videoId stem : String) (n i : Nat) (proxy : String)
    (e : YtAttemptEnv) (acc : YtLoopOut) : YtStepRes :=
  let acc1 := { acc with
    emissions := acc.emissions ++ [(10 : ℚ) + (i * 15 : ℚ)]
      ++ ytRunEmissions i n e.run.progressLines }
  if e.run.exitZero then
    let acc2 := { acc1 with emissions := acc1.emissions ++ [90] }
    match e.files.find? (fun f => isCompleteVideoFile stem f.fname) with
    | some f =>
      if f.size < MIN_VIDEO_BYTES then
        let acc3 := { acc2 with
          logs := acc2.logs ++ [⟨proxy, i + 1, false⟩, ⟨proxy, i + 1, false⟩]
          deletedSmall := acc2.deletedSmall ++ [f] }
        if i + 1 = n then
          .done { acc3 with result := .error ("Failed to download video " ++
            videoId ++ " after trying all proxies") }
        else
          .next acc3
      else
        .done { acc2 with
          logs := acc2.logs ++ [⟨proxy, i + 1, true⟩]
          emissions := acc2.emissions ++ [100]
          result := .ok f }
    | none =>
      let acc3 := { acc2 with
        logs := acc2.logs ++ [⟨proxy, i + 1, false⟩, ⟨proxy, i + 1, false⟩] }
      if i + 1 = n then
        .done { acc3 with result := .error ("Failed to download video " ++
          videoId ++ " after trying all proxies") }
      else
        .next acc3
  else
    if i + 1 = n then
      .done { acc1 with
        logs := acc1.logs ++ [⟨proxy, i + 1, false⟩, ⟨proxy, i + 1, false⟩]
        result := .error ("Failed to download video " ++ videoId ++
          " after trying all proxies") }
    else
      .next { acc1 with logs := acc1.logs ++ [⟨proxy, i + 1, false⟩] }

/-- The whole proxy loop: iterate `ytStep` over the identities (paired with
their attempt environments); falling off the end corresponds to the
unreachable final `throw` of line 296. -/
def ytLoopGo (videoId stem : String) (n : Nat) :
    Nat → List (String × YtAttemptEnv) → YtLoopOut → YtLoopOut
  | _, [], acc =>
    { acc with result := .error ("Failed to download video " ++ videoId ++
        " after trying all methods") }
  | i, (proxy, e) :: rest, acc =>
    match ytStep videoId stem n i proxy e acc with
    | .done out => out
    | .next acc1 => ytLoopGo videoId stem n (i + 1) rest acc1

/-- `YouTubeDownloader.download` against concrete attempt environments:
throws when the proxy list is empty (line 103), otherwise runs the loop
from the first identity. -/
def ytDownload (videoId stem : String) (proxies : List String)
    (envs : List YtAttemptEnv) : YtLoopOut :=
  if proxies.isEmpty then
    { logs := [], emissions := [],
      result := .error "No proxies available for download", deletedSmall := [] }
  else
    ytLoopGo videoId stem proxies.length 0 (proxies.zip envs)
      ⟨[], [], .error "", []⟩

theorem ytStep_done_ok (videoId stem : String) (n i : Nat) (proxy : String)
    (e : YtAttemptEnv) (acc out : YtLoopOut) (f : FileEntry)
    (hstep : ytStep videoId stem n i proxy e acc = .done out)
    (hok : out.result = Except.ok f) :
    MIN_VIDEO_BYTES ≤ f.size ∧ isCompleteVideoFile stem f.fname = true := by
  unfold ytStep at hstep
  by_cases hz : e.run.exitZero = true
  · rw [if_pos hz] at hstep
    rcases hfind : e.files.find? (fun g => isCompleteVideoFile stem g.fname) with _ | g
    · rw [hfind] at hstep
      dsimp only at hstep
      by_cases hlast : i + 1 = n
      · rw [if_pos hlast] at hstep
        cases hstep
        exact absurd hok (by simp)
      · rw [if_neg hlast] at hstep
        cases hstep
    · rw [hfind] at hstep
      dsimp only at hstep
      by_cases hsmall : g.size < MIN_VIDEO_BYTES
      · rw [if_pos hsmall] at hstep
        by_cases hlast : i + 1 = n
        · rw [if_pos hlast] at hstep
          cases hstep
          exact absurd hok (by simp)
        · rw [if_neg hlast] at hstep
          cases hstep
      · rw [if_neg hsmall] at hstep
        cases hstep
        simp only [Except.ok.injEq] at hok
        subst hok
        exact ⟨by omega, by simpa using List.find?_some hfind⟩
  · rw [if_neg hz] at hstep
    by_cases hlast : i + 1 = n
    · rw [if_pos hlast] at hstep
      cases hstep
      exact absurd hok (by simp)
    · rw [if_neg hlast] at hstep
      cases hstep

theorem ytStep_next_deleted (videoId stem : String) (n i : Nat)
    (proxy : String) (e : YtAttemptEnv) (acc acc1 : YtLoopOut)
    (hstep : ytStep videoId stem n i proxy e acc = .next acc1)
    (hacc : ∀ g ∈ acc.deletedSmall, g.size < MIN_VIDEO_BYTES) :
    ∀ g ∈ acc1.deletedSmall, g.size < MIN_VIDEO_BYTES := by
  unfold ytStep at hstep
  by_cases hz : e.run.exitZero = true
  · rw [if_pos hz] at hstep
    rcases hfind : e.files.find? (fun g => isCompleteVideoFile stem g.fname) with _ | g
    · rw [hfind] at hstep
      dsimp only at hstep
      by_cases hlast : i + 1 = n
      · rw [if_pos hlast] at hstep
        cases hstep
      · rw [if_neg hlast] at hstep
        cases hstep
        exact hacc
    · rw [hfind] at hstep
      dsimp only at hstep
      by_cases hsmall : g.size < MIN_VIDEO_BYTES
      · rw [if_pos hsmall] at hstep
        by_cases hlast : i + 1 = n
        · rw [if_pos hlast] at hstep
          cases hstep
        · rw [if_neg hlast] at hstep
          cases hstep
          intro y hy
          rcases List.mem_append.mp hy with hy | hy
          · exact hacc y hy
          · simp only [List.mem_singleton] at hy
            subst hy
            exact hsmall
      · rw [if_neg hsmall] at hstep
        cases hstep
  · rw [if_neg hz] at hstep
    by_cases hlast : i + 1 = n
    · rw [if_pos hlast] at hstep
      cases hstep
    · rw [if_neg hlast] at hstep
      cases hstep
      exact hacc

theorem ytStep_done_deleted (videoId stem : String) (n i : Nat)
    (proxy : String) (e : YtAttemptEnv) (acc out : YtLoopOut)
    (hstep : ytStep videoId stem n i proxy e acc = .done out)
    (hacc : ∀ g ∈ acc.deletedSmall, g.size < MIN_VIDEO_BYTES) :
    ∀ g ∈ out.deletedSmall, g.size < MIN_VIDEO_BYTES := by
  unfold ytStep at hstep
  by_cases hz : e.run.exitZero = true
  · rw [if_pos hz] at hstep
    rcases hfind : e.files.find? (fun g => isCompleteVideoFile stem g.fname) with _ | g
    · rw [hfind] at hstep
      dsimp only at hstep
      by_cases hlast : i + 1 = n
      · rw [if_pos hlast] at hstep
        cases hstep
        exact hacc
      · rw [if_neg hlast] at hstep
        cases hstep
    · rw [hfind] at hstep
      dsimp only at hstep
      by_cases hsmall : g.size < MIN_VIDEO_BYTES
      · rw [if_pos hsmall] at hstep
        have hpush : ∀ y ∈ acc.deletedSmall ++ [g], y.size < MIN_VIDEO_BYTES := by
          intro y hy
          rcases List.mem_append.mp hy with hy | hy
          · exact hacc y hy
          · simp only [List.mem_singleton] at hy
            subst hy
            exact hsmall
        by_cases hlast : i + 1 = n
        · rw [if_pos hlast] at hstep
          cases hstep
          exact hpush
        · rw [if_neg hlast] at hstep
          cases hstep
      · rw [if_neg hsmall] at hstep
        cases hstep
        exact hacc
  · rw [if_neg hz] at hstep
    by_cases hlast : i + 1 = n
    · rw [if_pos hlast] at hstep
      cases hstep
      exact hacc
    · rw [if_neg hlast] at hstep
      cases hstep

theorem ytLoopGo_ok_gate (videoId stem : String) (n : Nat) :
    ∀ (pes : List (String × YtAttemptEnv)) (i : Nat) (acc : YtLoopOut)
      (f : FileEntry),
      (ytLoopGo videoId stem n i pes acc).result = Except.ok f →
      MIN_VIDEO_BYTES ≤ f.size ∧ isCompleteVideoFile stem f.fname = true
  | [], i, acc, f, hok => by
    simp only [ytLoopGo] at hok
    exact absurd hok (by simp)
  | (proxy, e) :: rest, i, acc, f, hok => by
    simp only [ytLoopGo] at hok
    rcases hstep : ytStep videoId stem n i proxy e acc with acc1 | out
    · rw [hstep] at hok
      dsimp only at hok
      exact ytLoopGo_ok_gate videoId stem n rest (i + 1) acc1 f hok
    · rw [hstep] at hok
      dsimp only at hok
      exact ytStep_done_ok videoId stem n i proxy e acc out f hstep hok

theorem ytLoopGo_deleted_small (videoId stem : String) (n : Nat) :
    ∀ (pes : List (String × YtAttemptEnv)) (i : Nat) (acc : YtLoopOut),
      (∀ g ∈ acc.deletedSmall, g.size < MIN_VIDEO_BYTES) →
      ∀ g ∈ (ytLoopGo videoId stem n i pes acc).deletedSmall,
        g.size < MIN_VIDEO_BYTES
  | [], i, acc, hacc => by
    simp only [ytLoopGo]
    exact hacc
  | (proxy, e) :: rest, i, acc, hacc => by
    simp only [ytLoopGo]
    rcases hstep : ytStep videoId stem n i proxy e acc with acc1 | out
    · exact ytLoopGo_deleted_small videoId stem n rest (i + 1) acc1
        (ytStep_next_deleted videoId stem n i proxy e acc acc1 hstep hacc)
    · exact ytStep_done_deleted videoId stem n i proxy e acc out hstep hacc

/-- C7: confirmed.  The platform-id fetcher only ever returns a file that
passed the verification gate: at least `MIN_VIDEO_BYTES` (5 MiB = 5242880
bytes) and not a temp/fragment name, carrying the expected
`<videoId>-<nonce>` stem; and every file the minimum-size check deletes was
smaller than 5 MiB. -/
theorem c7_no_small_file_returned (videoId stem : String)
    (proxies : List String) (envs : List YtAttemptEnv) (f : FileEntry)
    (hok : (ytDownload videoId stem proxies envs).result = Except.ok f) :
    MIN_VIDEO_BYTES ≤ f.size
    ∧ isCompleteVideoFile stem f.fname = true
    ∧ ∀ g ∈ (ytDownload videoId stem proxies envs).deletedSmall,
        g.size < MIN_VIDEO_BYTES := by
  unfold ytDownload at hok ⊢
  by_cases hp : proxies.isEmpty
  · rw [if_pos hp] at hok
    exact absurd hok (by simp)
  · rw [if_neg hp] at hok
    rw [if_neg hp]
    obtain ⟨h1, h2⟩ := ytLoopGo_ok_gate videoId stem proxies.length _ 0 _ f hok
    exact ⟨h1, h2,
      ytLoopGo_deleted_small videoId stem proxies.length _ 0 _ (by simp)⟩

/-- Witness for C7 at a concrete run: one identity, zero exit, a 6 MiB
produced file with the expected stem. -/
theorem c7_no_small_file_returned_witness :
    MIN_VIDEO_BYTES ≤ (6291456 : Nat)
    ∧ isCompleteVideoFile "vid-ab" "vid-ab.mp4" = true :=
  ⟨(c7_no_small_file_returned "vid" "vid-ab" ["http://p1"]
      [⟨⟨[], true⟩, [⟨"vid-ab.mp4", 6291456⟩]⟩] ⟨"vid-ab.mp4", 6291456⟩ rfl).1,
   (c7_no_small_file_returned "vid" "vid-ab" ["http://p1"]
      [⟨⟨[], true⟩, [⟨"vid-ab.mp4", 6291456⟩]⟩] ⟨"vid-ab.mp4", 6291456⟩ rfl).2.1⟩

/-- C6: refuted by the code.  With two egress identities whose child runs
both exit non-zero, the recorded attempt list holds three entries — the
final identity appears twice — because the `throw` that ends the loop
(youtubeDownloader.ts line 270) is raised inside the same `try` whose
`catch` block (lines 274-293) pushes the already-pushed log object again
(and double-reports it to the identity health accountant).  This refutes
"exactly one entry per identity actually attempted". -/
theorem c6_last_identity_double_logged :
    (ytDownload "vid" "vid-ab" ["http://pA", "http://pB"]
        [⟨⟨[], false⟩, []⟩, ⟨⟨[], false⟩, []⟩]).logs
      = [⟨"http://pA", 1, false⟩, ⟨"http://pB", 2, false⟩,
         ⟨"http://pB", 2, false⟩] := rfl

/-! ## C9: progress-percentage monotonicity within an attempt -/

/-- The two stages a job progress update can carry
(`ImportJobProgress.stage`). -/
inductive Stage
  | downloading
  | uploading
deriving Repr, DecidableEq

/-- The job progress updates (`job.updateProgress`) emitted on the success
path of `processImportJob` for a `local`-type job: `downloading` 0 at start
(importJob.ts lines 40-44), `downloading` 100 in the local branch (lines
84-88), `uploading` 0 before the upload (lines 139-143), then one
`uploading` update per upload progress callback (lines 148-154), with the
callbacks produced by `BunnyStorage.performUpload` as modelled by
`uploadEvents`.  The write-through to the recovery mirror (lines 127-131,
157) is not a job progress update. -/
def localSuccessProgress (chunks : List Nat) (fileSize : Nat) :
    List (Stage × ℚ) :=
  (Stage.downloading, 0) :: (Stage.downloading, 100) :: (Stage.uploading, 0) ::
    (uploadEvents chunks fileSize).map
      (fun ev => (Stage.uploading, (ev.percentage : ℚ)))

/-- Invariant of the `runYtDlpWithSpawn` progress state: emissions so far
are sorted, and the last one is at most the rescaled value of
`lastProgress`. -/
def YtRunInv (i n : Nat) (st : ℚ × List ℚ) : Prop :=
  List.Chain' (fun a b => a ≤ b) st.2
  ∧ ∀ x ∈ st.2.getLast?,
      x ≤ min ((10 : ℚ) + (i * 15 : ℚ) / (n : ℚ) + st.1 * (3 / 4)) 89

theorem ytRunStep_inv (i n : Nat) (st : ℚ × List ℚ) (p : ℚ)
    (h : YtRunInv i n st) : YtRunInv i n (ytRunStep i n st p) := by
  obtain ⟨h1, h2⟩ := h
  unfold ytRunStep
  by_cases hp : st.1 < p
  · rw [if_pos hp]
    constructor
    · rw [List.chain'_append]
      refine ⟨h1, List.chain'_singleton _, ?_⟩
      intro x hx y hy
      simp only [List.head?_cons, Option.mem_def, Option.some.injEq] at hy
      subst hy
      refine le_trans (h2 x hx) (min_le_min ?_ le_rfl)
      have := mul_le_mul_of_nonneg_right hp.le (by norm_num : (0 : ℚ) ≤ 3 / 4)
      linarith
    · intro x hx
      rw [List.getLast?_concat] at hx
      simp only [Option.mem_def, Option.some.injEq] at hx
      subst hx
      exact le_rfl
  · rw [if_neg hp]
    exact ⟨h1, h2⟩

theorem ytRunFold_inv (i n : Nat) :
    ∀ (lines : List ℚ) (st : ℚ × List ℚ), YtRunInv i n st →
      YtRunInv i n (lines.foldl (ytRunStep i n) st)
  | [], _, h => h
  | p :: rest, st, h =>
    ytRunFold_inv i n rest _ (ytRunStep_inv i n st p h)

theorem ytRunEmissions_chain (i n : Nat) (lines : List ℚ) :
    List.Chain' (fun a b => a ≤ b) (ytRunEmissions i n lines) :=
  (ytRunFold_inv i n lines ((0 : ℚ), []) ⟨List.chain'_nil, by simp⟩).1

theorem uploadEvents_percentage_chain (chunks : List Nat) (fileSize : Nat)
    (hsum : chunks.sum ≤ fileSize) :
    List.Chain' (fun a b => a.percentage ≤ b.percentage)
      (uploadEvents chunks fileSize) := by
  obtain ⟨h1, h2, h3, h4⟩ :=
    uploadFold_inv fileSize chunks ⟨0, 0, []⟩ (uploadInv_init fileSize)
  have hbytes := uploadFold_bytes fileSize chunks ⟨0, 0, []⟩
  unfold uploadEvents uploadTransformEvents
  rw [List.chain'_append]
  refine ⟨h2.imp (fun a b hab => hab.2), List.chain'_singleton _, ?_⟩
  intro x hx y hy
  simp only [List.head?_cons, Option.mem_def, Option.some.injEq] at hy
  subst hy
  obtain ⟨x1, x2, x3, x4, x5⟩ := h3 x (mem_of_getLast?_mem hx)
  dsimp only
  rw [x3]
  refine jsRoundPercent_le_100 (le_trans x2 ?_)
  rw [hbytes]
  simpa using hsum

/-- C9: counterexample to the claim as stated.  First, a successful
`local`-type attempt emits `downloading` 100 and then `uploading` 0, so the
emitted percentages are not non-decreasing across the stage transition of a
single attempt.  Second, on the platform-id path the pre-attempt emission
for the second of two identities is `10 + 1·15 = 25`, while the first
in-run emission of that identity rescales 1% to
`min(10 + 1·15/2 + 0.75, 89) = 18.25 < 25` — a drop within the
`downloading` stage of a single attempt. -/
theorem c9_percentage_not_monotone :
    ¬ List.Chain' (fun a b => a.2 ≤ b.2) (localSuccessProgress [] 5)
    ∧ ¬ List.Chain' (fun a b => a ≤ b)
        ((ytDownload "vid" "vid-ab" ["http://pA", "http://pB"]
            [⟨⟨[], false⟩, []⟩, ⟨⟨[1], false⟩, []⟩]).emissions) := by
  constructor
  · intro h
    have h1 := List.chain'_cons.mp (show List.Chain' (fun a b => a.2 ≤ b.2)
      ((Stage.downloading, (0 : ℚ)) :: (Stage.downloading, 100) ::
        (Stage.uploading, 0) :: (uploadEvents [] 5).map
          (fun ev => (Stage.uploading, (ev.percentage : ℚ)))) from h)
    have h2 := (List.chain'_cons.mp h1.2).1
    norm_num at h2
  · intro h
    have h1 := List.chain'_cons.mp (show List.Chain' (fun a b => a ≤ b)
      (((10 : ℚ) + ((0 : Nat) * 15 : ℚ)) :: ((10 : ℚ) + ((1 : Nat) * 15 : ℚ)) ::
        (min ((10 : ℚ) + ((1 : Nat) * 15 : ℚ) / ((2 : Nat) : ℚ) + 1 * (3 / 4)) 89)
        :: []) from h)
    have h2 := (List.chain'_cons.mp h1.2).1
    rw [le_min_iff] at h2
    obtain ⟨h2, -⟩ := h2
    norm_num at h2

/-- C9: the amended claim.  Within a single streaming transfer — one origin
upload attempt, or one `yt-dlp` child run — the emitted progress
percentages are non-decreasing; the percentage restarts at the stage's
base value at the downloading→uploading transition (the first `uploading`
update of an attempt carries percentage 0), between egress-identity
attempts, and on each retry (a fresh attempt rebuilds the transfer state
from zero). -/
theorem c9_amended_monotone_per_transfer (chunks : List Nat) (fileSize : Nat)
    (hsum : chunks.sum ≤ fileSize) (i n : Nat) (lines : List ℚ) :
    List.Chain' (fun a b => a.percentage ≤ b.percentage)
      (uploadEvents chunks fileSize)
    ∧ List.Chain' (fun a b => a ≤ b) (ytRunEmissions i n lines)
    ∧ (localSuccessProgress chunks fileSize).get? 2
        = some (Stage.uploading, 0) :=
  ⟨uploadEvents_percentage_chain chunks fileSize hsum,
   ytRunEmissions_chain i n lines, rfl⟩

/-- Witness for the amended C9 at concrete inputs. -/
theorem c9_amended_witness :
    List.Chain' (fun a b => a.percentage ≤ b.percentage) (uploadEvents [] 5)
    ∧ List.Chain' (fun a b => a ≤ b) (ytRunEmissions 1 2 [1])
    ∧ (localSuccessProgress [] 5).get? 2 = some (Stage.uploading, 0) :=
  c9_amended_monotone_per_transfer [] 5 (by decide) 1 2 [1]

end Importer
